import Mathlib

/-!
Verification of the media-storage consistency subsystem
(src/nsc-events-nestjs/src/media/media.service.ts).

The service is embedded as state-passing Lean functions. External state
(the S3 bucket, the metadata table, the activities table) lives in a
`World`; external failures (S3, database, sharp) are injected through an
`Env` of fault switches carrying the raw error messages that the thrown
JavaScript errors would carry. Buffers are modelled by their length,
which is the only attribute of a buffer the service reads. Logger calls
do not change observable state and are omitted. Each call to an external
adapter bumps a counter (or appends to a key trace) in the `World`, so
that claims about which stores are touched can be stated exactly.
-/

namespace MediaModel

/-- MediaType from media.entity.ts. -/
inductive MediaType where
  | image
  | document
deriving DecidableEq, Repr

/-- The Media entity columns read or written by MediaService. -/
structure Media where
  id : String
  filename : String
  originalName : String
  mimeType : String
  size : Nat
  s3Key : String
  s3Url : String
  type : MediaType
  uploadedByUserId : String
deriving DecidableEq, Repr

/-- An owning Activity row, reduced to the two media reference slots the
orphan query joins on (cover_photo_id and document_id). -/
structure Activity where
  id : String
  coverPhotoId : Option String
  documentId : Option String
deriving DecidableEq, Repr

/-- The fields of the uploaded Express.Multer.File that the service reads.
`buffer` is the length of the byte buffer. `size` is the Multer-reported
size field, which the service uses for validation. -/
structure MFile where
  originalname : String
  mimetype : String
  size : Nat
  buffer : Nat
deriving DecidableEq, Repr

/-- Errors, mirroring the exception classes the service throws or
rethrows: BadRequestException, NotFoundException, HttpException with
status 500, and raw (non-Nest) errors from the S3 client, TypeORM or
sharp, identified by their message. -/
inductive MErr where
  | badRequest (msg : String)
  | notFound (msg : String)
  | http (msg : String)
  | ext (msg : String)
deriving DecidableEq, Repr

/-- error.message, as read by the catch blocks. -/
def MErr.message : MErr → String
  | .badRequest m => m
  | .notFound m => m
  | .http m => m
  | .ext m => m

/-- Observable external state plus call traces.
`s3` is the set of keys present in the bucket, `db` the media rows,
`activities` the owning rows the orphan query joins against. The
remaining fields trace adapter calls: S3 PutObject and DeleteObject keys,
and counts of repository save / remove / findOne calls and of sharp
resize calls. -/
structure World where
  s3 : List String
  db : List Media
  activities : List Activity
  putCalls : List String
  deleteCalls : List String
  saveCalls : Nat
  removeCalls : Nat
  findCalls : Nat
  transformCalls : Nat
deriving DecidableEq, Repr

/-- Configuration and fault injection. A `some msg` fault makes the
corresponding external call reject with a raw error of that message;
`none` makes it succeed. S3 delete faults are keyed by object key,
repository remove and findOne faults by media id. `resize` gives the
length of the sharp output for a given input length, `now` is Date.now(),
`newId` the uuid the database generates on save. -/
structure Env where
  bucketName : String
  region : String
  now : Nat
  newId : String
  resize : Nat → Nat
  transformFail : Option String
  putFail : Option String
  saveFail : Option String
  s3DeleteFail : String → Option String
  removeFail : String → Option String
  findFail : String → Option String
  orphanQueryFail : Option String

/-- MAX_FILE_SIZE_BYTES = 5 * 1024 * 1024. -/
def MAX_FILE_SIZE_BYTES : Nat := 5 * 1024 * 1024

/-- allowedImageMimeTypes, verbatim from the service. -/
def allowedImageMimeTypes : List String :=
  ["image/png", "image/jpeg", "image/jpg", "image/webp", "image/gif"]

/-- allowedDocumentMimeTypes, verbatim from the service. -/
def allowedDocumentMimeTypes : List String :=
  ["application/pdf", "application/msword",
   "application/vnd.openxmlformats-officedocument.wordprocessingml.document"]

/-- The allow-list picked in uploadFile for a given media type. -/
def allowedTypesFor (type : MediaType) : List String :=
  if type = MediaType.image then allowedImageMimeTypes else allowedDocumentMimeTypes

def mediaTypeStr : MediaType → String
  | .image => "image"
  | .document => "document"

/-- Message of the size BadRequestException. -/
def sizeErrMsg : String := "File size exceeds the maximum limit of 5 MB."

/-- Message of the type BadRequestException. -/
def typeErrMsg (type : MediaType) : String :=
  "Invalid file type for " ++ mediaTypeStr type ++ ". Allowed types: " ++
    String.intercalate ", " (allowedTypesFor type)

/-- resizeImage: one sharp call; on failure sharp rejects and the method
throws a raw Error with the wrapped message. -/
def resizeImage (env : Env) (buffer : Nat) (w : World) : Except MErr Nat × World :=
  let w1 : World := { w with transformCalls := w.transformCalls + 1 }
  match env.transformFail with
  | some m => (Except.error (MErr.ext ("Failed to resize image: " ++ m)), w1)
  | none => (Except.ok (env.resize buffer), w1)

/-- One S3 PutObject send. On success the key is present afterward. -/
def s3Put (env : Env) (key : String) (w : World) : Except MErr Unit × World :=
  let w1 : World := { w with putCalls := w.putCalls ++ [key] }
  match env.putFail with
  | some m => (Except.error (MErr.ext m), w1)
  | none => (Except.ok (), { w1 with s3 := if key ∈ w1.s3 then w1.s3 else key :: w1.s3 })

/-- repository.save of a freshly created entity: on success the row is
appended with the generated id already filled in. -/
def dbSave (env : Env) (m : Media) (w : World) : Except MErr Media × World :=
  let w1 : World := { w with saveCalls := w.saveCalls + 1 }
  match env.saveFail with
  | some msg => (Except.error (MErr.ext msg), w1)
  | none => (Except.ok m, { w1 with db := w1.db ++ [m] })

/-- repository.findOne({ where: { id } }). -/
def dbFindOne (env : Env) (id : String) (w : World) : Except MErr (Option Media) × World :=
  let w1 : World := { w with findCalls := w.findCalls + 1 }
  match env.findFail id with
  | some m => (Except.error (MErr.ext m), w1)
  | none => (Except.ok (w1.db.find? (fun r => r.id == id)), w1)

/-- repository.remove(media): deletes the row with that primary key. -/
def dbRemove (env : Env) (m : Media) (w : World) : Except MErr Unit × World :=
  let w1 : World := { w with removeCalls := w.removeCalls + 1 }
  match env.removeFail m.id with
  | some msg => (Except.error (MErr.ext msg), w1)
  | none => (Except.ok (), { w1 with db := w1.db.filter (fun r => !(r.id == m.id)) })

/-- deleteFromS3: sends DeleteObjectCommand, logs, and rethrows the raw
error on failure. -/
def deleteFromS3 (env : Env) (s3Key : String) (w : World) : Except MErr Unit × World :=
  let w1 : World := { w with deleteCalls := w.deleteCalls ++ [s3Key] }
  match env.s3DeleteFail s3Key with
  | some m => (Except.error (MErr.ext m), w1)
  | none => (Except.ok (), { w1 with s3 := w1.s3.filter (fun k => !(k == s3Key)) })

/-- The rollback in the catch block of uploadFile: if s3Key was assigned,
call deleteFromS3 and swallow its failure (the .catch only logs). -/
def s3Rollback (env : Env) (s3Key : Option String) (w : World) : World :=
  match s3Key with
  | none => w
  | some key => (deleteFromS3 env key w).2

/-- The catch block of uploadFile: run the rollback when s3Key is
non-null, rethrow BadRequestException unchanged, wrap anything else in an
HttpException with the original message. -/
def uploadCatch (env : Env) (s3Key : Option String) (e : MErr) (w : World) :
    Except MErr Media × World :=
  let w1 := s3Rollback env s3Key w
  match e with
  | .badRequest m => (Except.error (MErr.badRequest m), w1)
  | e => (Except.error (MErr.http ("Error uploading file: " ++ e.message)), w1)

/-- The s3Key derived in uploadFile: folder/Date.now()-originalname. -/
def genKey (env : Env) (folder : String) (file : MFile) : String :=
  folder ++ "/" ++ (toString env.now ++ "-" ++ file.originalname)

/-- MediaService.uploadFile. Validation (size, then MIME type) happens
before the try block; inside it: optional resize, key derivation, S3 put,
URL construction, repository save; the catch block compensates with an
S3 delete whenever s3Key was already assigned. -/
def uploadFile (env : Env) (file : MFile) (uploadedByUserId : String)
    (type : MediaType) (folder : String) (resize : Bool) (w : World) :
    Except MErr Media × World :=
  if file.size > MAX_FILE_SIZE_BYTES then
    (Except.error (MErr.badRequest sizeErrMsg), w)
  else if file.mimetype ∈ allowedTypesFor type then
    match (if resize = true ∧ type = MediaType.image
           then resizeImage env file.buffer w
           else (Except.ok file.buffer, w)) with
    | (Except.error e, w1) => uploadCatch env none e w1
    | (Except.ok fileBuffer, w1) =>
      let filename := toString env.now ++ "-" ++ file.originalname
      let s3Key := folder ++ "/" ++ filename
      match s3Put env s3Key w1 with
      | (Except.error e, w2) => uploadCatch env (some s3Key) e w2
      | (Except.ok _, w2) =>
        let s3Url :=
          if env.region = "us-east-1" then
            "https://" ++ env.bucketName ++ ".s3.amazonaws.com/" ++ s3Key
          else
            "https://" ++ env.bucketName ++ ".s3." ++ env.region ++
              ".amazonaws.com/" ++ s3Key
        let media : Media :=
          { id := env.newId, filename := filename, originalName := file.originalname,
            mimeType := file.mimetype, size := fileBuffer, s3Key := s3Key,
            s3Url := s3Url, type := type, uploadedByUserId := uploadedByUserId }
        match dbSave env media w2 with
        | (Except.error e, w3) => uploadCatch env (some s3Key) e w3
        | (Except.ok saved, w3) => (Except.ok saved, w3)
  else
    (Except.error (MErr.badRequest (typeErrMsg type)), w)

/-- MediaService.findById: findOne, NotFound when absent; other errors
become HttpException with a generic message. -/
def findById (env : Env) (id : String) (w : World) : Except MErr Media × World :=
  match dbFindOne env id w with
  | (Except.error _, w1) => (Except.error (MErr.http "Error retrieving media"), w1)
  | (Except.ok none, w1) =>
      (Except.error (MErr.notFound ("Media with ID " ++ id ++ " not found")), w1)
  | (Except.ok (some m), w1) => (Except.ok m, w1)

/-- The catch block of delete: NotFoundException is rethrown, everything
else becomes a generic HttpException. -/
def deleteCatch (e : MErr) : MErr :=
  match e with
  | .notFound m => MErr.notFound m
  | _ => MErr.http "Error deleting media"

/-- MediaService.delete: findById, then deleteFromS3, then
repository.remove, wrapped in the catch above. -/
def delete (env : Env) (id : String) (w : World) : Except MErr Unit × World :=
  match findById env id w with
  | (Except.error e, w1) => (Except.error (deleteCatch e), w1)
  | (Except.ok media, w1) =>
    match deleteFromS3 env media.s3Key w1 with
    | (Except.error e, w2) => (Except.error (deleteCatch e), w2)
    | (Except.ok _, w2) =>
      match dbRemove env media w2 with
      | (Except.error e, w3) => (Except.error (deleteCatch e), w3)
      | (Except.ok _, w3) => (Except.ok (), w3)

/-- Result shape of deleteMany and cleanupOrphanedMedia. -/
structure DMResult where
  deleted : Nat
  failed : List String
deriving DecidableEq, Repr

/-- The loop body of deleteMany, with the running count and failure list
as accumulators. A failed delete is logged and its id appended. -/
def deleteManyGo (env : Env) (ids : List String) (deleted : Nat)
    (failed : List String) (w : World) : DMResult × World :=
  match ids with
  | [] => ({ deleted := deleted, failed := failed }, w)
  | id :: rest =>
    match delete env id w with
    | (Except.ok _, w1) => deleteManyGo env rest (deleted + 1) failed w1
    | (Except.error _, w1) => deleteManyGo env rest deleted (failed ++ [id]) w1

/-- MediaService.deleteMany. Never throws: partial results are collected. -/
def deleteMany (env : Env) (ids : List String) (w : World) : DMResult × World :=
  deleteManyGo env ids 0 [] w

/-- The orphan predicate of the query in findOrphanedMedia: no activity
references the media as cover photo or document. -/
def isOrphan (activities : List Activity) (m : Media) : Bool :=
  activities.all (fun a => !(a.coverPhotoId == some m.id) && !(a.documentId == some m.id))

/-- MediaService.findOrphanedMedia: the left-join query selecting media
referenced by no activity; query errors become a generic HttpException. -/
def findOrphanedMedia (env : Env) (w : World) : Except MErr (List Media) × World :=
  match env.orphanQueryFail with
  | some _ => (Except.error (MErr.http "Error finding orphaned media"), w)
  | none => (Except.ok (w.db.filter (isOrphan w.activities)), w)

/-- MediaService.cleanupOrphanedMedia: findOrphanedMedia, early return on
an empty orphan list, otherwise deleteMany over the orphan ids; errors of
the query are wrapped by the catch block. -/
def cleanupOrphanedMedia (env : Env) (w : World) : Except MErr DMResult × World :=
  match findOrphanedMedia env w with
  | (Except.error _, w1) =>
      (Except.error (MErr.http "Error cleaning up orphaned media"), w1)
  | (Except.ok orphaned, w1) =>
    if orphaned.length = 0 then (Except.ok { deleted := 0, failed := [] }, w1)
    else
      let r := deleteMany env (orphaned.map (fun m => m.id)) w1
      (Except.ok r.1, r.2)

/-- MediaService.replaceMedia: upload the new file first (failures
propagate untouched), then best-effort delete of the old id, whose
failure is caught and only logged. -/
def replaceMedia (env : Env) (oldMediaId : Option String) (file : MFile)
    (uploadedByUserId : String) (type : MediaType) (folder : String)
    (resize : Bool) (w : World) : Except MErr Media × World :=
  match uploadFile env file uploadedByUserId type folder resize w with
  | (Except.error e, w1) => (Except.error e, w1)
  | (Except.ok newMedia, w1) =>
    match oldMediaId with
    | none => (Except.ok newMedia, w1)
    | some oldId => (Except.ok newMedia, (delete env oldId w1).2)

/-- True exactly on a BadRequestException carrying the given message. -/
def isBadReq (msg : String) : Except MErr Media → Bool
  | Except.error (MErr.badRequest m) => m == msg
  | _ => false

/-- True on a successful result. -/
def resultOk {α : Type} : Except MErr α → Bool
  | Except.ok _ => true
  | Except.error _ => false

/-- The size recorded in a successfully returned Media record. -/
def recordedSize : Except MErr Media → Option Nat
  | Except.ok m => some m.size
  | _ => none

/-- The image MIME allow-list exactly as the specification words it:
png, jpeg, webp, gif. -/
def specImageMimeAllowList : List String :=
  ["image/png", "image/jpeg", "image/webp", "image/gif"]

end MediaModel

namespace MediaModel

/-- A fault-free environment used by concrete witnesses. -/
def noFaultEnv : Env :=
  { bucketName := "b", region := "us-east-1", now := 0, newId := "new-id",
    resize := fun _ => 50, transformFail := none, putFail := none, saveFail := none,
    s3DeleteFail := fun _ => none, removeFail := fun _ => none,
    findFail := fun _ => none, orphanQueryFail := none }

/-- An empty initial world. -/
def emptyWorld : World :=
  { s3 := [], db := [], activities := [], putCalls := [], deleteCalls := [],
    saveCalls := 0, removeCalls := 0, findCalls := 0, transformCalls := 0 }

/-- A small valid png upload. -/
def pngFile : MFile :=
  { originalname := "a.png", mimetype := "image/png", size := 100, buffer := 100 }

/-- A png upload one byte over the 5 MiB ceiling. -/
def bigFile : MFile :=
  { originalname := "big.png", mimetype := "image/png", size := 5 * 1024 * 1024 + 1,
    buffer := 5 * 1024 * 1024 + 1 }

end MediaModel

namespace MediaModel

/-- C3: an input over the size ceiling or with a mime type outside the
allow-list of its kind is rejected with a BadRequestException and the
world is completely untouched: no blob-store call, no metadata-store
call, no transform. -/
theorem upload_validation_gate (env : Env) (file : MFile) (uid : String)
    (type : MediaType) (folder : String) (resize : Bool) (w : World)
    (h : file.size > MAX_FILE_SIZE_BYTES ∨ file.mimetype ∉ allowedTypesFor type) :
    (uploadFile env file uid type folder resize w).2 = w ∧
    ∃ msg, (uploadFile env file uid type folder resize w).1
      = Except.error (MErr.badRequest msg) := by
  rcases h with h | h
  · simp [uploadFile, h]
  · by_cases hs : file.size > MAX_FILE_SIZE_BYTES
    · simp [uploadFile, hs]
    · simp [uploadFile, hs, h]

/-- Witness for C3 at a concrete oversized input. -/
theorem upload_validation_gate_witness :
    (uploadFile noFaultEnv bigFile "u" MediaType.image "uploads" false emptyWorld).2
        = emptyWorld ∧
    ∃ msg, (uploadFile noFaultEnv bigFile "u" MediaType.image "uploads" false
        emptyWorld).1 = Except.error (MErr.badRequest msg) :=
  upload_validation_gate noFaultEnv bigFile "u" MediaType.image "uploads" false
    emptyWorld (Or.inl (by decide))

end MediaModel

namespace MediaModel

/-- C9 (code behavior at the failing input): when the S3 put itself
fails, uploadFile surfaces the blob error wrapped as an internal
HttpException, but it nevertheless issues a compensating S3 delete of the
never-written key, because s3Key is assigned before the put; this
contradicts the rollback comment in the source, which restricts the
rollback to uploads whose S3 write succeeded. -/
theorem upload_blobfail_issues_compensating_delete :
    (uploadFile { noFaultEnv with putFail := some "s3 put failed" } pngFile "u"
        MediaType.image "uploads" false emptyWorld).1
      = Except.error (MErr.http "Error uploading file: s3 put failed")
    ∧ (uploadFile { noFaultEnv with putFail := some "s3 put failed" } pngFile "u"
        MediaType.image "uploads" false emptyWorld).2.deleteCalls
      = ["uploads/0-a.png"] :=
  ⟨rfl, rfl⟩

/-- C8 counterexample: the mime type image/jpg is outside the image
allow-list as the specification states it (png, jpeg, webp, gif), yet the
service accepts it: an upload with mimetype image/jpg passes validation
and succeeds. -/
theorem image_jpg_accepted_beyond_spec_list :
    ("image/jpg" ∈ allowedImageMimeTypes ∧ "image/jpg" ∉ specImageMimeAllowList)
    ∧ resultOk (uploadFile noFaultEnv
        { originalname := "a.jpg", mimetype := "image/jpg", size := 100, buffer := 100 }
        "u" MediaType.image "uploads" false emptyWorld).1 = true :=
  ⟨⟨by decide, by decide⟩, rfl⟩

end MediaModel

namespace MediaModel

/-- C8 (amended): for inputs passing the size check, uploadFile rejects
with the type BadRequestException exactly when the mime type is outside
the allow-list of the kind — which for images is the five-element list
png, jpeg, jpg, webp, gif (the code also accepts the alias image/jpg),
and for documents pdf, doc, docx. -/
theorem uploadFile_type_gate (env : Env) (file : MFile) (uid : String)
    (type : MediaType) (folder : String) (resize : Bool) (w : World)
    (hsize : ¬ file.size > MAX_FILE_SIZE_BYTES) :
    isBadReq (typeErrMsg type) (uploadFile env file uid type folder resize w).1 = true
      ↔ file.mimetype ∉ allowedTypesFor type := by
  constructor
  · intro h hmem
    by_cases hri : resize = true ∧ type = MediaType.image
    · obtain ⟨hrz, hty⟩ := hri
      subst hty
      subst hrz
      cases ht : env.transformFail <;>
      cases hp : env.putFail <;>
      cases hv : env.saveFail <;>
      simp [uploadFile, resizeImage, s3Put, dbSave, uploadCatch, s3Rollback,
            deleteFromS3, MErr.message, isBadReq, hsize, hmem, ht, hp, hv] at h
    · cases hp : env.putFail <;>
      cases hv : env.saveFail <;>
      simp [uploadFile, s3Put, dbSave, uploadCatch, s3Rollback,
            deleteFromS3, MErr.message, isBadReq, hsize, hmem, hri, hp, hv] at h
  · intro h
    simp [uploadFile, isBadReq, hsize, h]

end MediaModel

namespace MediaModel

/-- Witness for the C8 type gate at a concrete input: a png uploaded as a
document is rejected by the type check. -/
theorem uploadFile_type_gate_witness :
    (isBadReq (typeErrMsg MediaType.document)
        (uploadFile noFaultEnv pngFile "u" MediaType.document "uploads" false
          emptyWorld).1 = true
      ↔ pngFile.mimetype ∉ allowedTypesFor MediaType.document) :=
  uploadFile_type_gate noFaultEnv pngFile "u" MediaType.document "uploads" false
    emptyWorld (by decide)

/-- C10: the size ceiling is checked against the original Multer size
field, before any transform: an oversized image is rejected even when the
requested resize would have shrunk it under the limit; and when a resized
upload succeeds, the Media record stores the length of the post-transform
buffer, not the validated input size. -/
theorem upload_size_validated_vs_recorded (env : Env) (file : MFile) (uid : String)
    (folder : String) (w : World)
    (_hshrink : env.resize file.buffer ≤ MAX_FILE_SIZE_BYTES) :
    (file.size > MAX_FILE_SIZE_BYTES →
        isBadReq sizeErrMsg
          (uploadFile env file uid MediaType.image folder true w).1 = true)
    ∧ (¬ file.size > MAX_FILE_SIZE_BYTES → file.mimetype ∈ allowedImageMimeTypes →
        env.transformFail = none → env.putFail = none → env.saveFail = none →
        recordedSize (uploadFile env file uid MediaType.image folder true w).1
          = some (env.resize file.buffer)) := by
  constructor
  · intro h
    simp [uploadFile, isBadReq, h]
  · intro hs hm ht hp hv
    simp [uploadFile, allowedTypesFor, resizeImage, s3Put, dbSave, recordedSize,
          hs, hm, ht, hp, hv]

/-- Witness for C10: a 100-byte png resized to 50 bytes is recorded with
size 50, the post-transform length, not the validated 100. -/
theorem upload_size_validated_vs_recorded_witness :
    (pngFile.size > MAX_FILE_SIZE_BYTES →
        isBadReq sizeErrMsg
          (uploadFile noFaultEnv pngFile "u" MediaType.image "uploads" true
            emptyWorld).1 = true)
    ∧ (¬ pngFile.size > MAX_FILE_SIZE_BYTES →
        pngFile.mimetype ∈ allowedImageMimeTypes →
        noFaultEnv.transformFail = none → noFaultEnv.putFail = none →
        noFaultEnv.saveFail = none →
        recordedSize (uploadFile noFaultEnv pngFile "u" MediaType.image "uploads"
            true emptyWorld).1 = some (noFaultEnv.resize pngFile.buffer)) :=
  upload_size_validated_vs_recorded noFaultEnv pngFile "u" "uploads" emptyWorld
    (by decide)

end MediaModel

namespace MediaModel

/-- C1: when the S3 put succeeds and the repository save then fails,
uploadFile issues exactly one compensating delete of the just-written
key; when that compensating delete succeeds the blob is gone; and in
every case — the compensating delete succeeding or failing — the error
surfaced to the caller is the metadata-write error wrapped in the upload
HttpException, never a blob error. -/
theorem upload_rollback (env : Env) (file : MFile) (uid : String)
    (type : MediaType) (folder : String) (resize : Bool) (w : World) (msg : String)
    (hsize : ¬ file.size > MAX_FILE_SIZE_BYTES)
    (hmime : file.mimetype ∈ allowedTypesFor type)
    (htr : env.transformFail = none)
    (hput : env.putFail = none)
    (hsave : env.saveFail = some msg) :
    (uploadFile env file uid type folder resize w).1
        = Except.error (MErr.http ("Error uploading file: " ++ msg))
    ∧ (uploadFile env file uid type folder resize w).2.deleteCalls
        = w.deleteCalls ++ [genKey env folder file]
    ∧ (env.s3DeleteFail (genKey env folder file) = none →
        genKey env folder file ∉ (uploadFile env file uid type folder resize w).2.s3) := by
  cases hd : env.s3DeleteFail (genKey env folder file) <;>
  simp only [genKey] at hd <;>
  by_cases hri : resize = true ∧ type = MediaType.image
  case pos =>
    obtain ⟨hrz, hty⟩ := hri
    subst hty
    subst hrz
    simp [uploadFile, genKey, resizeImage, s3Put, dbSave, uploadCatch, s3Rollback,
          deleteFromS3, MErr.message, hsize, hmime, htr, hput, hsave, hd,
          List.mem_filter]
  case neg =>
    simp [uploadFile, genKey, s3Put, dbSave, uploadCatch, s3Rollback,
          deleteFromS3, MErr.message, hsize, hmime, hri, hput, hsave, hd,
          List.mem_filter]
  case pos =>
    obtain ⟨hrz, hty⟩ := hri
    subst hty
    subst hrz
    simp [uploadFile, genKey, resizeImage, s3Put, dbSave, uploadCatch, s3Rollback,
          deleteFromS3, MErr.message, hsize, hmime, htr, hput, hsave, hd]
  case neg =>
    simp [uploadFile, genKey, s3Put, dbSave, uploadCatch, s3Rollback,
          deleteFromS3, MErr.message, hsize, hmime, hri, hput, hsave, hd]

end MediaModel

namespace MediaModel

/-- Environment where only the repository save fails. -/
def saveFailEnv : Env := { noFaultEnv with saveFail := some "db down" }

/-- Witness for C1 at a concrete input: save fails, the compensating
delete is issued on the generated key, the blob is absent afterward, and
the surfaced error wraps the metadata error message. -/
theorem upload_rollback_witness :
    (uploadFile saveFailEnv pngFile "u" MediaType.image "uploads" false emptyWorld).1
        = Except.error (MErr.http ("Error uploading file: " ++ "db down"))
    ∧ (uploadFile saveFailEnv pngFile "u" MediaType.image "uploads" false
        emptyWorld).2.deleteCalls
        = emptyWorld.deleteCalls ++ [genKey saveFailEnv "uploads" pngFile]
    ∧ (saveFailEnv.s3DeleteFail (genKey saveFailEnv "uploads" pngFile) = none →
        genKey saveFailEnv "uploads" pngFile
          ∉ (uploadFile saveFailEnv pngFile "u" MediaType.image "uploads" false
              emptyWorld).2.s3) :=
  upload_rollback saveFailEnv pngFile "u" MediaType.image "uploads" false emptyWorld
    "db down" (by decide) (by decide) rfl rfl rfl

end MediaModel

namespace MediaModel

/-- C2: delete is blob-first, metadata-second. For a record that findById
resolves: if the S3 delete fails the metadata table is unchanged (the
record still exists, retryable) and delete errors; if the S3 delete
succeeds and the repository remove then fails, the blob is gone while the
metadata table is unchanged (dangling record, never an orphan blob), and
delete errors. -/
theorem delete_ordering (env : Env) (id : String) (w : World) (media : Media)
    (hf : env.findFail id = none)
    (hm : w.db.find? (fun r => r.id == id) = some media) :
    ((env.s3DeleteFail media.s3Key).isSome →
        (delete env id w).2.db = w.db ∧ resultOk (delete env id w).1 = false)
    ∧ (env.s3DeleteFail media.s3Key = none → (env.removeFail media.id).isSome →
        media.s3Key ∉ (delete env id w).2.s3
          ∧ (delete env id w).2.db = w.db
          ∧ resultOk (delete env id w).1 = false) := by
  cases hd : env.s3DeleteFail media.s3Key <;>
  cases hr : env.removeFail media.id <;>
  simp [delete, findById, dbFindOne, deleteFromS3, dbRemove, deleteCatch, resultOk,
        List.mem_filter, hf, hm, hd, hr]

/-- A media row used by concrete delete scenarios. -/
def rowM0 : Media :=
  { id := "m0", filename := "f.png", originalName := "f.png",
    mimeType := "image/png", size := 1, s3Key := "uploads/f.png",
    s3Url := "https://b.s3.amazonaws.com/uploads/f.png", type := MediaType.image,
    uploadedByUserId := "u" }

/-- A world holding exactly rowM0 and its blob. -/
def worldM0 : World := { emptyWorld with s3 := ["uploads/f.png"], db := [rowM0] }

/-- Environment where the S3 delete of the rowM0 blob fails. -/
def s3DownEnv : Env :=
  { noFaultEnv with
    s3DeleteFail := fun k => if k == "uploads/f.png" then some "s3 down" else none }

/-- Witness for C2 at a concrete input where the blob delete fails. -/
theorem delete_ordering_witness :
    (((s3DownEnv.s3DeleteFail rowM0.s3Key).isSome →
        (delete s3DownEnv "m0" worldM0).2.db = worldM0.db
          ∧ resultOk (delete s3DownEnv "m0" worldM0).1 = false)
    ∧ (s3DownEnv.s3DeleteFail rowM0.s3Key = none →
        (s3DownEnv.removeFail rowM0.id).isSome →
        rowM0.s3Key ∉ (delete s3DownEnv "m0" worldM0).2.s3
          ∧ (delete s3DownEnv "m0" worldM0).2.db = worldM0.db
          ∧ resultOk (delete s3DownEnv "m0" worldM0).1 = false)) :=
  delete_ordering s3DownEnv "m0" worldM0 rowM0 rfl (by decide)

end MediaModel

namespace MediaModel

/-- Membership in the conditional insert used by s3Put. -/
theorem mem_insert_if (s : List String) (key k : String) :
    (k ∈ (if key ∈ s then s else key :: s)) ↔ (k = key ∨ k ∈ s) := by
  split
  · rename_i hkey
    constructor
    · intro h2
      exact Or.inr h2
    · rintro (rfl | h2)
      · exact hkey
      · exact h2
  · simp [List.mem_cons]

/-- uploadFile never changes the metadata table when it fails: the only
database mutation is the successful save, which makes the call succeed. -/
theorem uploadFile_error_db (env : Env) (file : MFile) (uid : String)
    (type : MediaType) (folder : String) (resize : Bool) (w : World) (e : MErr)
    (h : (uploadFile env file uid type folder resize w).1 = Except.error e) :
    (uploadFile env file uid type folder resize w).2.db = w.db := by
  by_cases hs : file.size > MAX_FILE_SIZE_BYTES
  · simp [uploadFile, hs]
  by_cases hm : file.mimetype ∈ allowedTypesFor type
  · by_cases hri : resize = true ∧ type = MediaType.image
    · obtain ⟨hrz, hty⟩ := hri
      subst hty
      subst hrz
      cases ht : env.transformFail <;>
      cases hp : env.putFail <;>
      cases hv : env.saveFail <;>
      cases hd : env.s3DeleteFail
        (folder ++ "/" ++ (toString env.now ++ "-" ++ file.originalname)) <;>
      simp [uploadFile, resizeImage, s3Put, dbSave, uploadCatch, s3Rollback,
            deleteFromS3, hs, hm, ht, hp, hv, hd] at h ⊢
    · cases hp : env.putFail <;>
      cases hv : env.saveFail <;>
      cases hd : env.s3DeleteFail
        (folder ++ "/" ++ (toString env.now ++ "-" ++ file.originalname)) <;>
      simp [uploadFile, s3Put, dbSave, uploadCatch, s3Rollback, deleteFromS3,
            hs, hm, hri, hp, hv, hd] at h ⊢
  · simp [uploadFile, hs, hm]

/-- uploadFile only ever touches the blob store at the key it derives for
this call: presence of every other key is unchanged. -/
theorem uploadFile_s3_other_keys (env : Env) (file : MFile) (uid : String)
    (type : MediaType) (folder : String) (resize : Bool) (w : World) (k : String)
    (hk : k ≠ genKey env folder file) :
    (k ∈ (uploadFile env file uid type folder resize w).2.s3 ↔ k ∈ w.s3) := by
  simp only [genKey] at hk
  by_cases hs : file.size > MAX_FILE_SIZE_BYTES
  · simp [uploadFile, hs]
  by_cases hm : file.mimetype ∈ allowedTypesFor type
  · by_cases hri : resize = true ∧ type = MediaType.image
    · obtain ⟨hrz, hty⟩ := hri
      subst hty
      subst hrz
      cases ht : env.transformFail <;>
      cases hp : env.putFail <;>
      cases hv : env.saveFail <;>
      cases hd : env.s3DeleteFail
        (folder ++ "/" ++ (toString env.now ++ "-" ++ file.originalname)) <;>
      simp [uploadFile, resizeImage, s3Put, dbSave, uploadCatch, s3Rollback,
            deleteFromS3, List.mem_filter, mem_insert_if, hs, hm, ht, hp, hv, hd, hk]
    · cases hp : env.putFail <;>
      cases hv : env.saveFail <;>
      cases hd : env.s3DeleteFail
        (folder ++ "/" ++ (toString env.now ++ "-" ++ file.originalname)) <;>
      simp [uploadFile, s3Put, dbSave, uploadCatch, s3Rollback, deleteFromS3,
            List.mem_filter, mem_insert_if, hs, hm, hri, hp, hv, hd, hk]
  · simp [uploadFile, hs, hm]

end MediaModel

namespace MediaModel

/-- C4: when the upload of the new file fails, replaceMedia returns that
upload error unchanged and the old media is untouched: the metadata table
is exactly as before, and the old blob key (distinct from the key derived
for the new upload) is present afterward exactly when it was before. -/
theorem replace_upload_fail_old_untouched (env : Env) (oldId : String) (file : MFile)
    (uid : String) (type : MediaType) (folder : String) (resize : Bool) (w : World)
    (e : MErr) (oldMedia : Media)
    (hup : (uploadFile env file uid type folder resize w).1 = Except.error e)
    (_hold : oldMedia ∈ w.db)
    (hkey : oldMedia.s3Key ≠ genKey env folder file) :
    (replaceMedia env (some oldId) file uid type folder resize w).1 = Except.error e
    ∧ (replaceMedia env (some oldId) file uid type folder resize w).2.db = w.db
    ∧ (oldMedia.s3Key ∈ (replaceMedia env (some oldId) file uid type folder
          resize w).2.s3
        ↔ oldMedia.s3Key ∈ w.s3) := by
  have hdb := uploadFile_error_db env file uid type folder resize w e hup
  have hs3 := uploadFile_s3_other_keys env file uid type folder resize w
    oldMedia.s3Key hkey
  rcases hu : uploadFile env file uid type folder resize w with ⟨r, w1⟩
  rw [hu] at hup hdb hs3
  cases r with
  | ok m => simp at hup
  | error e2 =>
    simp at hup hdb hs3
    subst hup
    simp [replaceMedia, hu, hdb, hs3]

/-- Environment where only the S3 put fails. -/
def putFailEnv : Env := { noFaultEnv with putFail := some "s3 put failed" }

/-- Witness for C4 at a concrete input: the S3 put of the new file fails
and the old record and blob are untouched. -/
theorem replace_upload_fail_old_untouched_witness :
    (replaceMedia putFailEnv (some "m0") pngFile "u" MediaType.image "uploads"
        false worldM0).1
      = Except.error (MErr.http "Error uploading file: s3 put failed")
    ∧ (replaceMedia putFailEnv (some "m0") pngFile "u" MediaType.image "uploads"
        false worldM0).2.db = worldM0.db
    ∧ (rowM0.s3Key ∈ (replaceMedia putFailEnv (some "m0") pngFile "u"
          MediaType.image "uploads" false worldM0).2.s3
        ↔ rowM0.s3Key ∈ worldM0.s3) :=
  replace_upload_fail_old_untouched putFailEnv "m0" pngFile "u" MediaType.image
    "uploads" false worldM0 (MErr.http "Error uploading file: s3 put failed") rowM0
    rfl (by decide) (by decide)

end MediaModel

namespace MediaModel

/-- C5: when the upload of the new file succeeds, replaceMedia returns
the new Media record even though the subsequent delete of the old id
fails — the old-delete failure is caught and never fails the replace. -/
theorem replace_best_effort_cleanup (env : Env) (oldId : String) (file : MFile)
    (uid : String) (type : MediaType) (folder : String) (resize : Bool) (w : World)
    (nm : Media) (e : MErr)
    (hup : (uploadFile env file uid type folder resize w).1 = Except.ok nm)
    (_hdel : (delete env oldId
        (uploadFile env file uid type folder resize w).2).1 = Except.error e) :
    (replaceMedia env (some oldId) file uid type folder resize w).1
      = Except.ok nm := by
  rcases hu : uploadFile env file uid type folder resize w with ⟨r, w1⟩
  rw [hu] at hup
  cases r with
  | error e2 => simp at hup
  | ok m =>
    simp at hup
    subst hup
    simp [replaceMedia, hu]

/-- Environment where only the repository remove of row m0 fails. -/
def removeFailEnv : Env :=
  { noFaultEnv with
    removeFail := fun i => if i == "m0" then some "db remove down" else none }

/-- The Media record returned by the witness upload of C5. -/
def c5NewMedia : Media :=
  { id := "new-id", filename := "0-a.png", originalName := "a.png",
    mimeType := "image/png", size := 100, s3Key := "uploads/0-a.png",
    s3Url := "https://b.s3.amazonaws.com/uploads/0-a.png", type := MediaType.image,
    uploadedByUserId := "u" }

/-- Witness for C5 at a concrete input: the new upload succeeds, deleting
the old media fails at the repository remove, and replaceMedia still
returns the new record. -/
theorem replace_best_effort_cleanup_witness :
    (replaceMedia removeFailEnv (some "m0") pngFile "u" MediaType.image "uploads"
        false worldM0).1 = Except.ok c5NewMedia :=
  replace_best_effort_cleanup removeFailEnv "m0" pngFile "u" MediaType.image
    "uploads" false worldM0 c5NewMedia (MErr.http "Error deleting media") rfl rfl

end MediaModel

namespace MediaModel

/-- Every path through delete calls findById, hence findOne, exactly
once. -/
theorem delete_findCalls (env : Env) (id : String) (w : World) :
    (delete env id w).2.findCalls = w.findCalls + 1 := by
  cases hf : env.findFail id
  · cases hm : w.db.find? (fun r => r.id == id)
    · simp [delete, findById, dbFindOne, hf, hm]
    · rename_i media
      cases hd : env.s3DeleteFail media.s3Key
      · cases hr : env.removeFail media.id <;>
          simp [delete, findById, dbFindOne, deleteFromS3, dbRemove, hf, hm, hd, hr]
      · simp [delete, findById, dbFindOne, deleteFromS3, hf, hm, hd]
  · simp [delete, findById, dbFindOne, hf]

/-- The loop of deleteMany counts one success or one failure per id. -/
theorem deleteManyGo_sum (env : Env) (ids : List String) :
    ∀ (d : Nat) (f : List String) (w : World),
      (deleteManyGo env ids d f w).1.deleted
          + (deleteManyGo env ids d f w).1.failed.length
        = d + f.length + ids.length := by
  induction ids with
  | nil =>
    intro d f w
    simp [deleteManyGo]
  | cons id rest ih =>
    intro d f w
    rcases hd : delete env id w with ⟨r, w1⟩
    cases r <;> simp [deleteManyGo, hd, ih] <;> omega

/-- The failure list of the loop of deleteMany extends the accumulator by
a sublist of the processed ids. -/
theorem deleteManyGo_failed_extends (env : Env) (ids : List String) :
    ∀ (d : Nat) (f : List String) (w : World),
      ∃ g, (deleteManyGo env ids d f w).1.failed = f ++ g
        ∧ List.Sublist g ids := by
  induction ids with
  | nil =>
    intro d f w
    exact ⟨[], by simp [deleteManyGo], List.nil_sublist []⟩
  | cons id rest ih =>
    intro d f w
    rcases hd : delete env id w with ⟨r, w1⟩
    cases r with
    | ok u =>
      obtain ⟨g, hg, hsub⟩ := ih (d + 1) f w1
      exact ⟨g, by simp [deleteManyGo, hd, hg], List.Sublist.cons id hsub⟩
    | error e =>
      obtain ⟨g, hg, hsub⟩ := ih d (f ++ [id]) w1
      refine ⟨id :: g, ?_, List.Sublist.cons₂ id hsub⟩
      simp [deleteManyGo, hd, hg]

/-- The loop of deleteMany performs one findOne per id. -/
theorem deleteManyGo_findCalls (env : Env) (ids : List String) :
    ∀ (d : Nat) (f : List String) (w : World),
      (deleteManyGo env ids d f w).2.findCalls = w.findCalls + ids.length := by
  induction ids with
  | nil =>
    intro d f w
    simp [deleteManyGo]
  | cons id rest ih =>
    intro d f w
    rcases hd : delete env id w with ⟨r, w1⟩
    have hone : w1.findCalls = w.findCalls + 1 := by
      have h0 := delete_findCalls env id w
      rw [hd] at h0
      simpa using h0
    cases r <;> simp [deleteManyGo, hd, ih, hone] <;> omega

/-- C6: deleteMany attempts a delete for every id exactly once (one
findOne per id, in list order), never throws, and partitions the ids:
successes plus failures account for the whole list, and the failure list
is a subsequence of the input ids. -/
theorem deleteMany_batch_isolation (env : Env) (ids : List String) (w : World) :
    (deleteMany env ids w).1.deleted + (deleteMany env ids w).1.failed.length
        = ids.length
    ∧ List.Sublist (deleteMany env ids w).1.failed ids
    ∧ (deleteMany env ids w).2.findCalls = w.findCalls + ids.length := by
  refine ⟨?_, ?_, ?_⟩
  · have h := deleteManyGo_sum env ids 0 [] w
    simpa [deleteMany] using h
  · obtain ⟨g, hg, hsub⟩ := deleteManyGo_failed_extends env ids 0 [] w
    have : (deleteManyGo env ids 0 [] w).1.failed = g := by simpa using hg
    simpa [deleteMany, this] using hsub
  · have h := deleteManyGo_findCalls env ids 0 [] w
    simpa [deleteMany] using h

end MediaModel

namespace MediaModel

/-- delete never adds metadata rows. -/
theorem delete_db_subset (env : Env) (id : String) (w : World) (r : Media)
    (h : r ∈ (delete env id w).2.db) : r ∈ w.db := by
  cases hf : env.findFail id
  · cases hm : w.db.find? (fun x => x.id == id)
    · simpa [delete, findById, dbFindOne, hf, hm] using h
    · rename_i media
      cases hd : env.s3DeleteFail media.s3Key
      · cases hr : env.removeFail media.id
        · rw [delete] at h
          simp [findById, dbFindOne, deleteFromS3, dbRemove, hf, hm, hd, hr] at h
          exact h.1
        · simpa [delete, findById, dbFindOne, deleteFromS3, dbRemove,
                 hf, hm, hd, hr] using h
      · simpa [delete, findById, dbFindOne, deleteFromS3, hf, hm, hd] using h
  · simpa [delete, findById, dbFindOne, hf] using h

/-- delete never touches the activities table. -/
theorem delete_activities (env : Env) (id : String) (w : World) :
    (delete env id w).2.activities = w.activities := by
  cases hf : env.findFail id
  · cases hm : w.db.find? (fun x => x.id == id)
    · simp [delete, findById, dbFindOne, hf, hm]
    · rename_i media
      cases hd : env.s3DeleteFail media.s3Key
      · cases hr : env.removeFail media.id <;>
          simp [delete, findById, dbFindOne, deleteFromS3, dbRemove, hf, hm, hd, hr]
      · simp [delete, findById, dbFindOne, deleteFromS3, hf, hm, hd]
  · simp [delete, findById, dbFindOne, hf]

/-- A successful delete removes exactly the rows carrying the deleted id. -/
theorem delete_ok_db (env : Env) (id : String) (w : World)
    (h : (delete env id w).1 = Except.ok ()) :
    (delete env id w).2.db = w.db.filter (fun r => !(r.id == id)) := by
  cases hf : env.findFail id
  · cases hm : w.db.find? (fun x => x.id == id)
    · simp [delete, findById, dbFindOne, hf, hm] at h
    · rename_i media
      have hmid : media.id = id := by
        have := List.find?_some hm
        simpa using this
      subst hmid
      cases hd : env.s3DeleteFail media.s3Key
      · cases hr : env.removeFail media.id
        · simp [delete, findById, dbFindOne, deleteFromS3, dbRemove,
                hf, hm, hd, hr]
        · simp [delete, findById, dbFindOne, deleteFromS3, dbRemove,
                hf, hm, hd, hr] at h
      · simp [delete, findById, dbFindOne, deleteFromS3, hf, hm, hd] at h
  · simp [delete, findById, dbFindOne, hf] at h

/-- The loop of deleteMany never adds metadata rows. -/
theorem deleteManyGo_db_subset (env : Env) (ids : List String) :
    ∀ (d : Nat) (f : List String) (w : World) (r : Media),
      r ∈ (deleteManyGo env ids d f w).2.db → r ∈ w.db := by
  induction ids with
  | nil =>
    intro d f w r h
    simpa [deleteManyGo] using h
  | cons id rest ih =>
    intro d f w r h
    rcases hd : delete env id w with ⟨res, w1⟩
    have hsub : r ∈ w1.db → r ∈ w.db := by
      intro hx
      have h0 := delete_db_subset env id w r
      rw [hd] at h0
      exact h0 hx
    cases res with
    | ok u =>
      rw [deleteManyGo] at h
      rw [hd] at h
      exact hsub (ih (d + 1) f w1 r h)
    | error e =>
      rw [deleteManyGo] at h
      rw [hd] at h
      exact hsub (ih d (f ++ [id]) w1 r h)

/-- The loop of deleteMany never touches the activities table. -/
theorem deleteManyGo_activities (env : Env) (ids : List String) :
    ∀ (d : Nat) (f : List String) (w : World),
      (deleteManyGo env ids d f w).2.activities = w.activities := by
  induction ids with
  | nil =>
    intro d f w
    simp [deleteManyGo]
  | cons id rest ih =>
    intro d f w
    rcases hd : delete env id w with ⟨res, w1⟩
    have hact : w1.activities = w.activities := by
      have h0 := delete_activities env id w
      rw [hd] at h0
      simpa using h0
    cases res <;> simp [deleteManyGo, hd, ih, hact]

/-- When the loop of deleteMany reports no new failure, no surviving row
carries any of the processed ids. -/
theorem deleteManyGo_all_deleted (env : Env) (ids : List String) :
    ∀ (d : Nat) (f : List String) (w : World),
      (deleteManyGo env ids d f w).1.failed = f →
      ∀ r ∈ (deleteManyGo env ids d f w).2.db, r.id ∉ ids := by
  induction ids with
  | nil =>
    intro d f w _ r _
    simp
  | cons id rest ih =>
    intro d f w h r hr hmem
    rcases hd : delete env id w with ⟨res, w1⟩
    cases res with
    | error e =>
      rw [deleteManyGo] at h
      rw [hd] at h
      obtain ⟨g, hg, _⟩ := deleteManyGo_failed_extends env rest d (f ++ [id]) w1
      rw [hg] at h
      have := congrArg List.length h
      simp at this
    | ok u =>
      rw [deleteManyGo] at h hr
      rw [hd] at h hr
      have hnotrest : r.id ∉ rest := ih (d + 1) f w1 h r hr
      have hrw1 : r ∈ w1.db := deleteManyGo_db_subset env rest (d + 1) f w1 r hr
      have hdb : w1.db = w.db.filter (fun x => !(x.id == id)) := by
        have h0 := delete_ok_db env id w
        rw [hd] at h0
        exact h0 rfl
      rw [hdb] at hrw1
      have hne : r.id ≠ id := by
        have := (List.mem_filter.mp hrw1).2
        simpa using this
      rcases List.mem_cons.mp hmem with h1 | h1
      · exact hne h1
      · exact hnotrest h1

end MediaModel

namespace MediaModel

/-- C7 (amended): cleanupOrphanedMedia is findOrphanedMedia followed by
deleteMany over the orphan ids (the early return on an empty orphan list
coincides with deleteMany of the empty list); and when a run reports no
failed ids, a second consecutive run with no intervening uploads or
deletes returns deleted = 0 and an empty failure list. -/
theorem cleanup_reconcile_idempotent (env : Env) (w : World)
    (hq : env.orphanQueryFail = none) :
    cleanupOrphanedMedia env w
      = (Except.ok (deleteMany env ((w.db.filter (isOrphan w.activities)).map
            (fun m => m.id)) w).1,
         (deleteMany env ((w.db.filter (isOrphan w.activities)).map
            (fun m => m.id)) w).2)
    ∧ (∀ res, (cleanupOrphanedMedia env w).1 = Except.ok res → res.failed = [] →
        (cleanupOrphanedMedia env (cleanupOrphanedMedia env w).2).1
          = Except.ok { deleted := 0, failed := [] }) := by
  have hstruct : cleanupOrphanedMedia env w
      = (Except.ok (deleteMany env ((w.db.filter (isOrphan w.activities)).map
            (fun m => m.id)) w).1,
         (deleteMany env ((w.db.filter (isOrphan w.activities)).map
            (fun m => m.id)) w).2) := by
    by_cases hlen : (w.db.filter (isOrphan w.activities)).length = 0
    · have hfil : w.db.filter (isOrphan w.activities) = [] :=
        List.length_eq_zero.mp hlen
      simp [cleanupOrphanedMedia, findOrphanedMedia, hq, hfil, deleteMany,
            deleteManyGo]
    · simp [cleanupOrphanedMedia, findOrphanedMedia, hq, hlen]
  refine ⟨hstruct, ?_⟩
  intro res hres hfail
  have hfail2 : (deleteMany env ((w.db.filter (isOrphan w.activities)).map
      (fun m => m.id)) w).1.failed = [] := by
    rw [hstruct] at hres
    simp at hres
    rw [hres]
    exact hfail
  have hclean2 : (cleanupOrphanedMedia env w).2
      = (deleteMany env ((w.db.filter (isOrphan w.activities)).map
          (fun m => m.id)) w).2 := by
    rw [hstruct]
  rw [hclean2]
  have hact : (deleteMany env ((w.db.filter (isOrphan w.activities)).map
      (fun m => m.id)) w).2.activities = w.activities :=
    deleteManyGo_activities env _ 0 [] w
  have hnone : (deleteMany env ((w.db.filter (isOrphan w.activities)).map
      (fun m => m.id)) w).2.db.filter
        (isOrphan (deleteMany env ((w.db.filter (isOrphan w.activities)).map
          (fun m => m.id)) w).2.activities) = [] := by
    rw [hact]
    rw [List.filter_eq_nil_iff]
    intro r hr
    have hsubs : r ∈ w.db := deleteManyGo_db_subset env _ 0 [] w r hr
    have hnotin : r.id ∉ (w.db.filter (isOrphan w.activities)).map
        (fun m => m.id) :=
      deleteManyGo_all_deleted env _ 0 [] w hfail2 r hr
    intro horf
    apply hnotin
    exact List.mem_map.mpr ⟨r, List.mem_filter.mpr ⟨hsubs, horf⟩, rfl⟩
  simp [cleanupOrphanedMedia, findOrphanedMedia, hq, hnone]

end MediaModel

namespace MediaModel

/-- Witness for C7 at a concrete input: one orphaned record, fault-free
deletes; the first run deletes it and the second run is a no-op. -/
theorem cleanup_reconcile_idempotent_witness :
    cleanupOrphanedMedia noFaultEnv worldM0
      = (Except.ok (deleteMany noFaultEnv
            ((worldM0.db.filter (isOrphan worldM0.activities)).map
              (fun m => m.id)) worldM0).1,
         (deleteMany noFaultEnv
            ((worldM0.db.filter (isOrphan worldM0.activities)).map
              (fun m => m.id)) worldM0).2)
    ∧ (∀ res, (cleanupOrphanedMedia noFaultEnv worldM0).1 = Except.ok res →
        res.failed = [] →
        (cleanupOrphanedMedia noFaultEnv
            (cleanupOrphanedMedia noFaultEnv worldM0).2).1
          = Except.ok { deleted := 0, failed := [] }) :=
  cleanup_reconcile_idempotent noFaultEnv worldM0 rfl

/-- C7 counterexample: with one orphaned record whose blob delete fails
persistently, the first reconcile run reports it failed and leaves it in
place, so the second consecutive run — with no intervening uploads or
deletes — again returns deleted = 0 with failed = [m0], not the empty
failure list the claim promises. -/
theorem cleanup_second_run_not_empty :
    (cleanupOrphanedMedia s3DownEnv
        (cleanupOrphanedMedia s3DownEnv worldM0).2).1
      = Except.ok { deleted := 0, failed := ["m0"] }
    ∧ ({ deleted := 0, failed := ["m0"] } : DMResult)
        ≠ { deleted := 0, failed := [] } :=
  ⟨rfl, by decide⟩

end MediaModel
